import Mathlib

/-!
Shallow embedding of the time-series analysis and forecasting core of the
pharmaceutical sales analysis repository (`src/time_series_analysis.py` and
`src/tsa_forecasting.py`), together with theorems settling the specification
claims about it.

Conventions:
* dates are represented as `Nat` (months since an arbitrary epoch; monthly
  granularity as the spec's data model states);
* numeric sales values are represented as `ℚ`;
* Python exceptions are an inductive `PyExc`; a `try/except` block is modelled
  by explicit matching on an `Except PyExc` result;
* pandas missing values (`NaN` produced by `rolling`) are `Option ℚ`.
-/

/-- One transaction row of the cleaned dataset: the columns the time-series
code reads (`Country`, `Date`, `Sales`). -/
structure Row where
  country : String
  date    : Nat
  sales   : ℚ
deriving DecidableEq, Repr

/-- Python exception values that can arise in the translated code paths.
`userDefined n` stands for an application-defined exception class named `n`
(the repository defines none in the time-series/forecasting modules). -/
inductive PyExc where
  | attributeError (name : String)
  | indexError
  | keyError (k : String)
  | valueError (msg : String)
  | plotlyError
  | exception (msg : String)
  | userDefined (name : String)
deriving DecidableEq, Repr

/-- Insert a date into a sorted list of dates (ascending). -/
def insertSorted (d : Nat) : List Nat → List Nat
  | [] => [d]
  | x :: xs => if d ≤ x then d :: x :: xs else x :: insertSorted d xs

/-- Sort a list of dates ascending, as pandas `groupby` sorts its keys. -/
def sortDates (l : List Nat) : List Nat := l.foldr insertSorted []

/-- The distinct dates occurring in a list of rows, sorted ascending: the
group keys of `groupby('Date')`. -/
def groupDates (rows : List Row) : List Nat := sortDates (rows.map Row.date).dedup

/-- Sum of the `Sales` values of the rows carrying date `d`. -/
def sumSalesAt (rows : List Row) (d : Nat) : ℚ :=
  ((rows.filter fun r => r.date = d).map Row.sales).sum

/-- Arithmetic mean of the `Sales` values of the rows carrying date `d`
(pandas `groupby(...).mean()`). -/
def meanSalesAt (rows : List Row) (d : Nat) : ℚ :=
  ((rows.filter fun r => r.date = d).map Row.sales).sum /
    ((rows.filter fun r => r.date = d).length : ℚ)

/-- `rows.groupby('Date')['Sales'].sum().reset_index()`: one `(date, sum)`
pair per distinct date, dates ascending. -/
def groupSumByDate (rows : List Row) : List (Nat × ℚ) :=
  (groupDates rows).map fun d => (d, sumSalesAt rows d)

/-- `TSAForecasting.data_organization` (tsa_forecasting.py lines 31-39):
filters the dataset down to Poland resp. Germany and aggregates `Sales`
by `Date` with `groupby('Date')['Sales'].sum()`. -/
def data_organization (df : List Row) : List (Nat × ℚ) × List (Nat × ℚ) :=
  (groupSumByDate (df.filter fun r => r.country = "Poland"),
   groupSumByDate (df.filter fun r => r.country = "Germany"))

/-- The per-country series built by `moving_average_analysis`
(time_series_analysis.py lines 228-231): filter to one country, sort by
date, and aggregate duplicate dates with `groupby(index).mean()`. -/
def countryAggregated (df : List Row) (c : String) : List (Nat × ℚ) :=
  let rows := df.filter fun r => r.country = c
  (groupDates rows).map fun d => (d, meanSalesAt rows d)

/-- pandas `rolling(window=w).mean()` on a series: position `i` is `NaN`
(`none`) while fewer than `w` observations are available, and otherwise the
mean of the `w` trailing values inclusive of position `i`. -/
def rollingMean (w : Nat) (s : List ℚ) : List (Option ℚ) :=
  (List.range s.length).map fun i =>
    if 1 ≤ w ∧ w ≤ i + 1 then some ((((s.take (i + 1)).drop (i + 1 - w)).sum) / (w : ℚ))
    else none

/-- One entry of the dictionary returned by
`TimeSeriesAnalysis.moving_average_analysis` (lines 224-235): for country
`c`, the per-date aggregated sales paired with the rolling mean column. -/
def moving_average_analysis (df : List Row) (window : Nat) (c : String) :
    List (Nat × ℚ × Option ℚ) :=
  let agg := countryAggregated df c
  List.zipWith (fun p m => (p.1, p.2, m)) agg (rollingMean window (agg.map Prod.snd))

/-! ## The forecasting engine (`tsa_forecasting.py`) -/

/-- A `Prophet` object held in `self.prophet_model`: either freshly
constructed and not yet fitted, or fitted, in which case it carries
`history_dates` — the sorted distinct `ds` values of the training frame. -/
inductive ProphetObj where
  | unfit
  | fitted (trainDates : List Nat)
deriving DecidableEq, Repr

/-- One row of the dataframe returned by `Prophet.predict`: date, point
estimate and uncertainty bounds. -/
structure FRow where
  ds         : Nat
  yhat       : ℚ
  yhat_lower : ℚ
  yhat_upper : ℚ
deriving DecidableEq, Repr

/-- The mutable state of a `TSAForecasting` instance.  `__init__` sets
`self.forecast = None` but never creates `self.prophet_model` (it only sets
the unused `self.model`), so `prophet_model` is an `Option`: `none` means
the attribute does not exist and reading it raises `AttributeError`. -/
structure TSAState where
  prophet_model : Option ProphetObj
  forecast      : Option (List FRow)
deriving DecidableEq, Repr

/-- The state of a freshly constructed `TSAForecasting` instance. -/
def initState : TSAState := { prophet_model := none, forecast := none }

/-- The `except Exception` / logging wrapper every `TSAForecasting` method
body is enclosed in: a raised exception is caught and logged and the method
falls through to returning `None`; state mutations made before the raise
persist. -/
def pyCatchAll {α : Type} (r : TSAState × Except PyExc (Option α)) :
    TSAState × Except PyExc (Option α) :=
  (r.1, match r.2 with
        | .ok v => .ok v
        | .error _ => .ok none)

/-- `Prophet.make_future_dataframe(periods, freq='M')` with
`include_history=True` (the default): the training dates followed by
`periods` further monthly steps after the last training date. -/
def make_future_dataframe (trainDates : List Nat) (periods : Nat) : List Nat :=
  trainDates ++ (List.range periods).map fun i => trainDates.getLast?.getD 0 + (i + 1)

/-- `Prophet.predict` on a frame of dates: one output row per input date, in
order.  The numeric model (trend/seasonality posterior) is abstracted as a
function `pred` from a date to the `(yhat, yhat_lower, yhat_upper)` triple. -/
def predictRows (pred : Nat → ℚ × ℚ × ℚ) (dates : List Nat) : List FRow :=
  dates.map fun d => ⟨d, (pred d).1, (pred d).2.1, (pred d).2.2⟩

/-- Body of `TSAForecasting.fit_prophet_model` (lines 57-80) on a plain
dataframe argument, given as a `(ds, y)` list.  `self.prophet_model` is
assigned the fresh `Prophet` object *before* fitting, so the assignment
survives a fit failure; `Prophet.fit` raises `ValueError` when the frame
has fewer than 2 rows, and otherwise records the sorted distinct `ds`
values as `history_dates`. -/
def fitBody (st : TSAState) (tr : List (Nat × ℚ)) :
    TSAState × Except PyExc (Option ProphetObj) :=
  let st1 := { st with prophet_model := some ProphetObj.unfit }
  if tr.length < 2 then
    (st1, .error (.valueError "Dataframe has less than 2 non-NaN rows."))
  else
    let m := ProphetObj.fitted (sortDates (tr.map Prod.fst).dedup)
    ({ st1 with prophet_model := some m }, .ok (some m))

/-- `TSAForecasting.fit_prophet_model`: the body under the
`except Exception` wrapper (lines 81-84). -/
def fit_prophet_model (st : TSAState) (tr : List (Nat × ℚ)) :
    TSAState × Except PyExc (Option ProphetObj) :=
  pyCatchAll (fitBody st tr)

/-- Body of `TSAForecasting.forecast_sales` (lines 99-116).  Reading
`self.prophet_model` raises `AttributeError` when `fit_prophet_model` was
never called; the `is None` early return is unreachable because the
attribute, once created, always holds a `Prophet` object.  On an unfitted
model `make_future_dataframe` raises `Exception('Model has not been fit.')`.
The `data` argument is only renamed into a local variable the method never
uses afterwards, so it does not appear here. -/
def forecastBody (pred : Nat → ℚ × ℚ × ℚ) (st : TSAState) (horizon_months : Nat) :
    TSAState × Except PyExc (Option (List FRow)) :=
  match st.prophet_model with
  | none => (st, .error (.attributeError "prophet_model"))
  | some ProphetObj.unfit => (st, .error (.exception "Model has not been fit."))
  | some (ProphetObj.fitted ds) =>
      let future := make_future_dataframe ds horizon_months
      let fc := predictRows pred future
      ({ st with forecast := some fc }, .ok (some fc))

/-- `TSAForecasting.forecast_sales`: the body under the `except Exception`
wrapper (lines 117-120). -/
def forecast_sales (pred : Nat → ℚ × ℚ × ℚ) (st : TSAState) (horizon_months : Nat) :
    TSAState × Except PyExc (Option (List FRow)) :=
  pyCatchAll (forecastBody pred st horizon_months)

/-- The minimum of a list of rationals via `foldl` (pandas `.min()` on a
nonempty series). -/
def listMin (x : ℚ) (l : List ℚ) : ℚ := l.foldl min x

/-- The maximum of a list of rationals via `foldl` (pandas `.max()` on a
nonempty series). -/
def listMax (x : ℚ) (l : List ℚ) : ℚ := l.foldl max x

/-- The summary dictionary built by `get_forecast_summary` (lines 203-207). -/
structure Summary where
  total_forecast_sales  : ℚ
  average_monthly_sales : ℚ
  min_expected_sales    : ℚ
  max_expected_sales    : ℚ
  sales_growth_rate     : ℚ
deriving DecidableEq, Repr

/-- Python positional slicing `l[a : b]` (`DataFrame.iloc[a : b]`) for a
non-negative start `a` and an arbitrary integer stop `b`: a negative stop
counts from the end of the list (`len(l) + b`, clamped at 0), a stop beyond
the end is clamped to the end, and a start at or past the stop gives the
empty slice. -/
def pySlice {α : Type} (l : List α) (a : Nat) (b : Int) : List α :=
  let stop : Nat := if b < 0 then (l.length + b).toNat else b.toNat
  (l.take stop).drop a

/-- Body of `TSAForecasting.get_forecast_summary` (lines 191-213).  `data`
is the historical `(ds, y)` frame, `perioDate` the (possibly non-positive)
number of months to summarize.  `future_forecast` is the Python slice
`self.forecast.iloc[n : n + perioDate]` — for a negative stop the slice
wraps around to count from the end of the forecast.  On an empty slice (or
empty historical frame) `future_forecast['yhat'].iloc[-1]` raises
`IndexError` while building the summary dictionary, so no summary is
produced. -/
def summaryBody (st : TSAState) (data : List (Nat × ℚ)) (perioDate : Int) :
    TSAState × Except PyExc (Option (Summary × List FRow)) :=
  match st.forecast with
  | none => (st, .ok none)
  | some fc =>
      let n := data.length
      let ff := pySlice fc n ((n : Int) + perioDate)
      match ff.getLast?, data.getLast? with
      | some lastF, some lastH =>
          (st, .ok (some ({ total_forecast_sales := (ff.map FRow.yhat).sum,
                            average_monthly_sales :=
                              (ff.map FRow.yhat).sum / (ff.length : ℚ),
                            min_expected_sales :=
                              listMin lastF.yhat_lower (ff.map FRow.yhat_lower),
                            max_expected_sales :=
                              listMax lastF.yhat_upper (ff.map FRow.yhat_upper),
                            sales_growth_rate :=
                              (lastF.yhat / lastH.2 - 1) * 100 }, ff)))
      | _, _ => (st, .error .indexError)

/-- `TSAForecasting.get_forecast_summary`: the body under the
`except Exception` wrapper (lines 214-217). -/
def get_forecast_summary (st : TSAState) (data : List (Nat × ℚ)) (perioDate : Int) :
    TSAState × Except PyExc (Option (Summary × List FRow)) :=
  pyCatchAll (summaryBody st data perioDate)

/-! ## Seasonal decomposition (`time_series_analysis.py`, `decompose_revenue`)

`decompose_revenue` aggregates `Sales` by `Date` (sum) and calls
`statsmodels.tsa.seasonal.seasonal_decompose(..., model='multiplication',
period=12)`.  `'multiplication'.startswith('m')` holds, so the multiplicative
branch runs.  The relevant statsmodels pipeline for an even period `p` with
the default two-sided filter is embedded below. -/

/-- The centered convolution trend at position `i`: the symmetric filter
`[1/2, 1, …, 1, 1/2] / p` of length `p + 1` used for an even period `p`,
undefined (`NaN`) within `p / 2` positions of either boundary. -/
def trendAt (s : List ℚ) (p i : Nat) : Option ℚ :=
  if p / 2 ≤ i ∧ i + p / 2 < s.length then
    some ((((List.range (p + 1)).map fun j =>
      (if j = 0 ∨ j = p then (1 : ℚ) / 2 else 1) * s.getD (i - p / 2 + j) 0).sum) / (p : ℚ))
  else none

/-- The detrended values `(x / trend)[j::p]` available (non-`NaN`) at
calendar position `j`. -/
def detrendedVals (s : List ℚ) (p j : Nat) : List ℚ :=
  ((List.range s.length).filter fun i => i % p = j).filterMap fun i =>
    (trendAt s p i).map fun t => s.getD i 0 / t

/-- `seasonal_mean` of the detrended series for calendar position `j`:
`nanmean` of `(x / trend)[j::p]`, skipping positions where the trend is
`NaN`; `none` when no position contributes (all-`NaN` mean). -/
def periodAvg (s : List ℚ) (p j : Nat) : Option ℚ :=
  if (detrendedVals s p j).length = 0 then none
  else some ((detrendedVals s p j).sum / ((detrendedVals s p j).length : ℚ))

/-- The `p` per-calendar-position averages of the detrended series. -/
def periodAvgs (s : List ℚ) (p : Nat) : List (Option ℚ) :=
  (List.range p).map (periodAvg s p)

/-- Collect a list of optional values, `none` when any entry is missing
(an all-or-nothing `NaN` propagation, as `np.mean` over a vector containing
`NaN` is `NaN`). -/
def liftOpts : List (Option ℚ) → Option (List ℚ)
  | [] => some []
  | none :: _ => none
  | some x :: rest => (liftOpts rest).map fun l => x :: l

/-- The normalized seasonal indices: each period average divided by the mean
of the period averages (`period_averages /= np.mean(period_averages)` in the
multiplicative branch). -/
def seasonalIndices (s : List ℚ) (p : Nat) : Option (List ℚ) :=
  (liftOpts (periodAvgs s p)).map fun avgs =>
    avgs.map fun a => a / (avgs.sum / (avgs.length : ℚ))

/-- The result object of `seasonal_decompose`: observed series, trend,
tiled seasonal component and residual. -/
structure DecompResult where
  observed : List ℚ
  trend    : List (Option ℚ)
  seasonal : List ℚ
  resid    : List (Option ℚ)
deriving DecidableEq, Repr

/-- `statsmodels.tsa.seasonal.seasonal_decompose` on a series `s` with the
multiplicative model and period `p`.  In the multiplicative branch the
library first rejects series containing zero or negative values
(`np.any(x <= 0)` raises `ValueError`), then raises `ValueError` unless the
series has at least two complete cycles (`len(x) >= 2 * period`), and only
then decomposes. -/
def seasonal_decompose (s : List ℚ) (p : Nat) : Except PyExc DecompResult :=
  if s.any fun x => x ≤ 0 then
    .error (.valueError
      "Multiplicative seasonality is not appropriate for zero and negative values")
  else if s.length < 2 * p then
    .error (.valueError "x must have 2 complete cycles")
  else
    let idx := (seasonalIndices s p).getD []
    .ok { observed := s
          trend    := (List.range s.length).map (trendAt s p)
          seasonal := (List.range s.length).map fun i => idx.getD (i % p) 0
          resid    := (List.range s.length).map fun i =>
            (trendAt s p i).map fun t => s.getD i 0 / (t * idx.getD (i % p) 0) }

/-- The `except pe.PlotlyError` handler wrapped around the body of every
`TimeSeriesAnalysis` plotting method: only `PlotlyError` is caught (and
turned into a logged `None` return); every other exception propagates to
the caller. -/
def catchPlotlyError {α : Type} (r : Except PyExc α) : Except PyExc (Option α) :=
  match r with
  | .ok v => .ok (some v)
  | .error .plotlyError => .ok none
  | .error e => .error e

/-- `TimeSeriesAnalysis.decompose_revenue` (lines 46-113): aggregate `Sales`
by `Date` (sum across the whole dataset), decompose with period 12, plot the
four components.  The decomposition result stands for the returned figure's
numeric content; only `PlotlyError` is caught. -/
def decompose_revenue (df : List Row) : Except PyExc (Option DecompResult) :=
  catchPlotlyError (seasonal_decompose ((groupSumByDate df).map Prod.snd) 12)

/-! ## Helper lemmas -/

theorem take_one_drop (s : List ℚ) (i : Nat) (hi : i < s.length) :
    (s.take (i + 1)).drop i = [s.get ⟨i, hi⟩] := by
  induction s generalizing i with
  | nil => simp at hi
  | cons a t ih =>
    cases i with
    | zero => simp
    | succ n =>
      have hn : n < t.length := by simpa using hi
      simpa using ih n hn

theorem rollingMean_length (w : Nat) (s : List ℚ) :
    (rollingMean w s).length = s.length := by
  simp [rollingMean]

theorem rollingMean_one (s : List ℚ) : rollingMean 1 s = s.map some := by
  apply List.ext_get
  · simp [rollingMean]
  · intro i h1 h2
    have hi : i < s.length := by simpa using h2
    simp only [rollingMean, List.get_eq_getElem, List.getElem_map, List.getElem_range,
      Nat.add_sub_cancel]
    rw [if_pos ⟨le_refl 1, Nat.succ_le_succ (Nat.zero_le i)⟩]
    rw [take_one_drop s i hi]
    simp

/-- C5: for every dataset and country, the moving average computed with
window = 1 equals the per-date aggregated series at every position: the
`Moving_Average` column of `moving_average_analysis(window=1)` coincides
with the aggregated `Sales` column. -/
theorem c5_window_one_identity (df : List Row) (c : String) :
    moving_average_analysis df 1 c =
      (countryAggregated df c).map fun p => (p.1, p.2, some p.2) := by
  simp only [moving_average_analysis]
  rw [rollingMean_one]
  generalize countryAggregated df c = agg
  induction agg with
  | nil => rfl
  | cons hd tl ih => simpa using ih

theorem rollingMean_getD (w : Nat) (s : List ℚ) (i : Nat) (hi : i < s.length) :
    (rollingMean w s).getD i none =
      if 1 ≤ w ∧ w ≤ i + 1 then
        some ((((s.take (i + 1)).drop (i + 1 - w)).sum) / (w : ℚ))
      else none := by
  simp [rollingMean, List.getD_eq_getElem?_getD, List.getElem?_range, hi]

/-- C4: for every series and window `W ≥ 1`, the rolling mean leaves the first
`W - 1` positions null, and from position `W - 1` on equals the arithmetic
mean of the trailing `W` original values inclusive of the position (the
trailing slice indeed holds `W` values); in particular the series
`[10, 20, 30, 40, 50]` with window 2 smooths to
`[null, 15, 25, 35, 45]`. -/
theorem c4_moving_average_boundary (s : List ℚ) (w i : Nat) (hw : 1 ≤ w)
    (hi : i < s.length) :
    (i < w - 1 → (rollingMean w s).getD i none = none) ∧
    (w - 1 ≤ i →
      ((s.take (i + 1)).drop (i + 1 - w)).length = w ∧
      (rollingMean w s).getD i none =
        some ((((s.take (i + 1)).drop (i + 1 - w)).sum) / (w : ℚ))) ∧
    rollingMean 2 [(10 : ℚ), 20, 30, 40, 50] =
      [none, some 15, some 25, some 35, some 45] := by
  refine ⟨?_, ?_, by norm_num [rollingMean, List.range_succ]⟩
  · intro hlt
    rw [rollingMean_getD w s i hi, if_neg]
    omega
  · intro hge
    constructor
    · rw [List.length_drop, List.length_take]
      omega
    · rw [rollingMean_getD w s i hi, if_pos]
      omega

theorem c4_moving_average_boundary_witness :
    (1 < 2 - 1 → (rollingMean 2 [(10 : ℚ), 20, 30, 40, 50]).getD 1 none = none) ∧
    (2 - 1 ≤ 1 →
      (([(10 : ℚ), 20, 30, 40, 50].take (1 + 1)).drop (1 + 1 - 2)).length = 2 ∧
      (rollingMean 2 [(10 : ℚ), 20, 30, 40, 50]).getD 1 none =
        some (((([(10 : ℚ), 20, 30, 40, 50].take (1 + 1)).drop (1 + 1 - 2)).sum) /
          ((2 : Nat) : ℚ))) ∧
    rollingMean 2 [(10 : ℚ), 20, 30, 40, 50] =
      [none, some 15, some 25, some 35, some 45] :=
  c4_moving_average_boundary [(10 : ℚ), 20, 30, 40, 50] 2 1 (by norm_num) (by norm_num)

theorem groupSum_mem_value (rows : List Row) (d : Nat) (v : ℚ)
    (h : (d, v) ∈ groupSumByDate rows) : v = sumSalesAt rows d := by
  rcases List.mem_map.mp h with ⟨d', _, heq⟩
  simp only [Prod.mk.injEq] at heq
  rcases heq with ⟨hd, hv⟩
  subst hd
  exact hv.symm

theorem countryAgg_mem_value (df : List Row) (c : String) (d : Nat) (v : ℚ)
    (h : (d, v) ∈ countryAggregated df c) :
    v = meanSalesAt (df.filter fun r => r.country = c) d := by
  simp only [countryAggregated] at h
  rcases List.mem_map.mp h with ⟨d', _, heq⟩
  simp only [Prod.mk.injEq] at heq
  rcases heq with ⟨hd, hv⟩
  subst hd
  exact hv.symm

/-- C3 counterexample: on a dataset with two Poland rows in the same month
(`Sales` 10 and 20), the per-country series built for the moving-average
analysis reports 15 — the *mean* — while the sum over the rows matching that
(group, month) pair is 30, so the claim that every aggregation path feeding
the downstream components sums the matching rows is false. -/
theorem c3_aggregation_counterexample :
    countryAggregated [⟨"Poland", 0, 10⟩, ⟨"Poland", 0, 20⟩] "Poland" = [(0, 15)] ∧
    (((([⟨"Poland", 0, 10⟩, ⟨"Poland", 0, 20⟩] : List Row).filter
        fun r => r.country = "Poland").filter
        fun r => r.date = 0).map Row.sales).sum = 30 ∧
    (15 : ℚ) ≠ 30 := by
  refine ⟨?_, by norm_num, by norm_num⟩
  norm_num [countryAggregated, groupDates, sortDates, insertSorted, meanSalesAt,
    List.dedup_cons_of_mem, List.dedup_cons_of_not_mem]

/-- C3 amended: the `data_organization` aggregation path (both the Poland
and the Germany series) equals the sum of `Sales` over exactly the rows
matching that group and month; the per-country series built for the
moving-average analysis instead carries the *mean* of the matching rows,
which agrees with the sum only when exactly one row matches the
(group, month) pair. -/
theorem c3_aggregation_amended (df : List Row) (d : Nat) (v : ℚ) :
    ((d, v) ∈ (data_organization df).1 →
      v = (((df.filter fun r => r.country = "Poland").filter
            fun r => r.date = d).map Row.sales).sum) ∧
    ((d, v) ∈ (data_organization df).2 →
      v = (((df.filter fun r => r.country = "Germany").filter
            fun r => r.date = d).map Row.sales).sum) ∧
    (∀ c : String, (d, v) ∈ countryAggregated df c →
      ((df.filter fun r => r.country = c).filter fun r => r.date = d).length = 1 →
      v = (((df.filter fun r => r.country = c).filter
            fun r => r.date = d).map Row.sales).sum) := by
  refine ⟨fun h => groupSum_mem_value _ d v h, fun h => groupSum_mem_value _ d v h, ?_⟩
  intro c h hlen
  have hv := countryAgg_mem_value df c d v h
  simp only [meanSalesAt] at hv
  rw [hlen] at hv
  simpa using hv

theorem c3_aggregation_amended_witness :
    (7 : ℚ) = (((([⟨"Poland", 3, 7⟩] : List Row).filter
        fun r => r.country = "Poland").filter
        fun r => r.date = 3).map Row.sales).sum :=
  (c3_aggregation_amended [⟨"Poland", 3, 7⟩] 3 7).1
    (by norm_num [data_organization, groupSumByDate, groupDates, sortDates,
      insertSorted, sumSalesAt])

theorem pyCatchAll_ok {α : Type} (r : TSAState × Except PyExc (Option α)) :
    (∃ v, (pyCatchAll r).2 = .ok v) ∧
    (∀ e, r.2 = .error e → (pyCatchAll r).2 = .ok none) := by
  rcases r with ⟨s, x⟩
  cases x <;> simp [pyCatchAll]

/-- C1 counterexample: on a freshly constructed instance, `forecast_sales`
(called before `fit`) returns `None` — the internal `AttributeError` from the
missing `prophet_model` attribute is caught by the `except Exception` block —
and `get_forecast_summary` (called before any forecast) returns `None` via
its early-return check.  Neither call raises any exception, in particular not
a `ModelNotFitError` or `ForecastNotAvailableError`: the repository defines
no such classes.  The state is left unchanged (no partial results). -/
theorem c1_state_machine_counterexample :
    (forecast_sales (fun _ => (0, 0, 0)) initState 12).2 = .ok none ∧
    (forecast_sales (fun _ => (0, 0, 0)) initState 12).1 = initState ∧
    (forecastBody (fun _ => (0, 0, 0)) initState 12).2 =
      .error (.attributeError "prophet_model") ∧
    (get_forecast_summary initState [] 12).2 = .ok none ∧
    (forecast_sales (fun _ => (0, 0, 0)) initState 12).2 ≠
      .error (.userDefined "ModelNotFitError") ∧
    (get_forecast_summary initState [] 12).2 ≠
      .error (.userDefined "ForecastNotAvailableError") := by
  have h1 : (forecast_sales (fun _ => (0, 0, 0)) initState 12).2 = .ok none := rfl
  have h2 : (get_forecast_summary initState [] 12).2 = .ok none := rfl
  refine ⟨h1, rfl, rfl, h2, ?_, ?_⟩
  · rw [h1]
    intro h
    exact Except.noConfusion h
  · rw [h2]
    intro h
    exact Except.noConfusion h

/-- C1 amended: when `fit` has not been called (the `prophet_model` attribute
does not exist) and no forecast exists, `forecast_sales` catches its internal
`AttributeError` and returns `None` with the state unchanged, and
`get_forecast_summary` returns `None` via its `self.forecast is None` check.
No partial results are produced and nothing is raised to the caller — in
particular no `ModelStateError`, which the repository does not define. -/
theorem c1_state_machine_amended (pred : Nat → ℚ × ℚ × ℚ) (st : TSAState)
    (H : Nat) (data : List (Nat × ℚ)) (p : Int)
    (h1 : st.prophet_model = none) (h2 : st.forecast = none) :
    forecast_sales pred st H = (st, .ok none) ∧
    get_forecast_summary st data p = (st, .ok none) := by
  constructor
  · unfold forecast_sales forecastBody
    rw [h1]
    rfl
  · unfold get_forecast_summary summaryBody
    rw [h2]
    rfl

theorem c1_state_machine_amended_witness :
    forecast_sales (fun _ => (0, 0, 0)) initState 12 = (initState, .ok none) ∧
    get_forecast_summary initState [] 12 = (initState, .ok none) :=
  c1_state_machine_amended (fun _ => (0, 0, 0)) initState 12 [] 12 rfl rfl

theorem pySlice_empty {α : Type} (l : List α) (n : Nat) (b : Int)
    (h0 : 0 ≤ b) (hb : b ≤ (n : Int)) : pySlice l n b = [] := by
  unfold pySlice
  rw [if_neg (by omega)]
  apply List.eq_nil_of_length_eq_zero
  rw [List.length_drop, List.length_take]
  omega

theorem pySlice_pos {α : Type} (l : List α) (n : Nat) (p : Int) (hp : 0 < p) :
    pySlice l n ((n : Int) + p) = (l.drop n).take p.toNat := by
  unfold pySlice
  rw [if_neg (by omega)]
  rw [List.drop_take]
  congr 1
  omega

/-- C8 counterexample: with a forecast present, `get_forecast_summary` with
horizon 0 does not raise an `EmptyHorizonError` (no such class exists in the
repository): the empty `iloc` slice makes `future_forecast['yhat'].iloc[-1]`
raise `IndexError`, which the `except Exception` block catches, and the
method returns `None`. -/
theorem c8_empty_horizon_counterexample :
    (get_forecast_summary
      { prophet_model := some (ProphetObj.fitted [0]),
        forecast := some [⟨0, 1, 1, 1⟩] } [(0, 1)] 0).2 = .ok none ∧
    (summaryBody
      { prophet_model := some (ProphetObj.fitted [0]),
        forecast := some [⟨0, 1, 1, 1⟩] } [(0, 1)] 0).2 = .error .indexError ∧
    (get_forecast_summary
      { prophet_model := some (ProphetObj.fitted [0]),
        forecast := some [⟨0, 1, 1, 1⟩] } [(0, 1)] 0).2 ≠
      .error (.userDefined "EmptyHorizonError") := by
  have h : (get_forecast_summary
      { prophet_model := some (ProphetObj.fitted [0]),
        forecast := some [⟨0, 1, 1, 1⟩] } [(0, 1)] 0).2 = .ok none := rfl
  refine ⟨h, rfl, ?_⟩
  rw [h]
  intro hcontra
  exact Except.noConfusion hcontra

/-- C8 amended: for every session in which a forecast exists, invoking
`get_forecast_summary` with a non-positive horizon that keeps the slice stop
`n_historical + horizon_months` non-negative (in particular any horizon in
`[-n_historical, 0]`, and always horizon 0) yields the empty future slice,
whose `iloc[-1]` access raises `IndexError` inside the body; the
`except Exception` handler catches it and the method returns `None`.  So no
summary metrics are returned there, but the failure is a swallowed
`IndexError`, not an `EmptyHorizonError` (which the repository does not
define).  For horizons below `-n_historical` the negative Python slice stop
wraps around to count from the end of the forecast, and the method can
instead return summary metrics over that tail slice — the last conjunct
exhibits a session (3 forecast rows, 1 historical row, horizon −2) whose
summary call returns real metrics. -/
theorem c8_empty_horizon_amended (st : TSAState) (fc : List FRow)
    (data : List (Nat × ℚ)) (p : Int)
    (hf : st.forecast = some fc) (hp : p ≤ 0)
    (hq : 0 ≤ (data.length : Int) + p) :
    (summaryBody st data p).2 = .error .indexError ∧
    get_forecast_summary st data p = (st, .ok none) ∧
    (get_forecast_summary
      { prophet_model := some (ProphetObj.fitted [0]),
        forecast := some [⟨0, 1, 1, 1⟩, ⟨1, 10, 8, 12⟩, ⟨2, 20, 15, 25⟩] }
      [(0, 5)] (-2)).2 =
      .ok (some ({ total_forecast_sales := 10, average_monthly_sales := 10,
                   min_expected_sales := 8, max_expected_sales := 12,
                   sales_growth_rate := 100 }, [⟨1, 10, 8, 12⟩])) := by
  have hslice : pySlice fc data.length ((data.length : Int) + p) = [] :=
    pySlice_empty fc data.length _ hq (by omega)
  have h : summaryBody st data p = (st, .error .indexError) := by
    unfold summaryBody
    rw [hf]
    simp only [hslice]
    cases data.getLast? <;> rfl
  refine ⟨by rw [h], by unfold get_forecast_summary; rw [h]; rfl, ?_⟩
  have ht : Int.toNat 2 = 2 := rfl
  norm_num [get_forecast_summary, pyCatchAll, summaryBody, pySlice, listMin,
    listMax, ht, List.getLast?]

theorem c8_empty_horizon_amended_witness :
    (summaryBody
      { prophet_model := some (ProphetObj.fitted [0]),
        forecast := some [⟨0, 2, 1, 3⟩] } [(0, 2)] (-1)).2 = .error .indexError ∧
    get_forecast_summary
      { prophet_model := some (ProphetObj.fitted [0]),
        forecast := some [⟨0, 2, 1, 3⟩] } [(0, 2)] (-1) =
      ({ prophet_model := some (ProphetObj.fitted [0]),
         forecast := some [⟨0, 2, 1, 3⟩] }, .ok none) :=
  ⟨(c8_empty_horizon_amended
      { prophet_model := some (ProphetObj.fitted [0]),
        forecast := some [⟨0, 2, 1, 3⟩] } [⟨0, 2, 1, 3⟩] [(0, 2)] (-1) rfl
      (by norm_num) (by norm_num)).1,
   (c8_empty_horizon_amended
      { prophet_model := some (ProphetObj.fitted [0]),
        forecast := some [⟨0, 2, 1, 3⟩] } [⟨0, 2, 1, 3⟩] [(0, 2)] (-1) rfl
      (by norm_num) (by norm_num)).2.1⟩

/-- C10: none of `fit_prophet_model`, `forecast_sales` and
`get_forecast_summary` ever propagates an exception to the caller: every
result is an `Except.ok`; and whenever the method body raises internally, the
method returns `None` — indistinguishable, for the caller, from the
legitimate absent-result paths that also return `None`. -/
theorem c10_no_exception_propagation (st : TSAState) (tr : List (Nat × ℚ))
    (pred : Nat → ℚ × ℚ × ℚ) (H : Nat) (data : List (Nat × ℚ)) (p : Int) :
    (∃ v, (fit_prophet_model st tr).2 = .ok v) ∧
    (∃ v, (forecast_sales pred st H).2 = .ok v) ∧
    (∃ v, (get_forecast_summary st data p).2 = .ok v) ∧
    (∀ e, (fitBody st tr).2 = .error e → (fit_prophet_model st tr).2 = .ok none) ∧
    (∀ e, (forecastBody pred st H).2 = .error e →
      (forecast_sales pred st H).2 = .ok none) ∧
    (∀ e, (summaryBody st data p).2 = .error e →
      (get_forecast_summary st data p).2 = .ok none) :=
  ⟨(pyCatchAll_ok (fitBody st tr)).1,
   (pyCatchAll_ok (forecastBody pred st H)).1,
   (pyCatchAll_ok (summaryBody st data p)).1,
   (pyCatchAll_ok (fitBody st tr)).2,
   (pyCatchAll_ok (forecastBody pred st H)).2,
   (pyCatchAll_ok (summaryBody st data p)).2⟩

theorem c10_no_exception_propagation_witness :
    (∃ v, (fit_prophet_model initState []).2 = .ok v) ∧
    (forecast_sales (fun _ => (0, 0, 0)) initState 3).2 = .ok none :=
  ⟨(c10_no_exception_propagation initState [] (fun _ => (0, 0, 0)) 3 [] 0).1,
   (c10_no_exception_propagation initState [] (fun _ => (0, 0, 0)) 3 [] 0).2.2.2.2.1
     (PyExc.attributeError "prophet_model") rfl⟩

theorem predictRows_drop_hist (pred : Nat → ℚ × ℚ × ℚ) (ds rest : List Nat) :
    (predictRows pred (ds ++ rest)).drop ds.length = predictRows pred rest := by
  unfold predictRows
  rw [List.map_append]
  rw [← List.length_map ds (fun d => (⟨d, (pred d).1, (pred d).2.1, (pred d).2.2⟩ : FRow))]
  exact List.drop_left _ _

/-- C7: for every fitted model and positive horizon `H`, `forecast_sales`
produces (and stores in `self.forecast`) a result whose future-only segment —
the rows beyond the historical fit range — has exactly `H` rows, and the
`i`-th future row's date is the last historical date plus `i + 1` monthly
steps: an ordered monthly continuation of the last historical date. -/
theorem c7_forecast_horizon (pred : Nat → ℚ × ℚ × ℚ) (st : TSAState)
    (ds : List Nat) (H : Nat)
    (hfit : st.prophet_model = some (ProphetObj.fitted ds)) (hH : 0 < H) :
    ∃ fc, forecast_sales pred st H = ({ st with forecast := some fc }, .ok (some fc)) ∧
      (fc.drop ds.length).length = H ∧
      (∀ i, i < H → ((fc.drop ds.length).getD i ⟨0, 0, 0, 0⟩).ds =
        ds.getLast?.getD 0 + (i + 1)) := by
  refine ⟨predictRows pred (make_future_dataframe ds H), ?_, ?_, ?_⟩
  · unfold forecast_sales forecastBody
    rw [hfit]
    rfl
  · rw [make_future_dataframe, predictRows_drop_hist]
    simp [predictRows]
  · intro i hi
    rw [make_future_dataframe, predictRows_drop_hist]
    simp [predictRows, List.getD_eq_getElem?_getD, List.getElem?_range, hi]

theorem c7_forecast_horizon_witness :
    ∃ fc, forecast_sales (fun d => ((d : ℚ), 0, 1))
        { prophet_model := some (ProphetObj.fitted [5]), forecast := none } 2 =
      ({ prophet_model := some (ProphetObj.fitted [5]), forecast := some fc },
        .ok (some fc)) ∧
      (fc.drop [5].length).length = 2 ∧
      (∀ i, i < 2 → ((fc.drop [5].length).getD i ⟨0, 0, 0, 0⟩).ds =
        [5].getLast?.getD 0 + (i + 1)) :=
  c7_forecast_horizon (fun d => ((d : ℚ), 0, 1))
    { prophet_model := some (ProphetObj.fitted [5]), forecast := none } [5] 2
    rfl (by norm_num)

theorem length_insertSorted (d : Nat) (l : List Nat) :
    (insertSorted d l).length = l.length + 1 := by
  induction l with
  | nil => rfl
  | cons x xs ih =>
    unfold insertSorted
    by_cases h : d ≤ x
    · simp [h]
    · simp [h, ih]

theorem length_sortDates (l : List Nat) : (sortDates l).length = l.length := by
  unfold sortDates
  induction l with
  | nil => rfl
  | cons x xs ih => simp [length_insertSorted, ih]

theorem pyCatchAll_ok_val {α : Type} (r : TSAState × Except PyExc (Option α))
    (v : Option α) (h : r.2 = .ok v) : (pyCatchAll r).2 = .ok v := by
  simp [pyCatchAll, h]

theorem summaryBody_ok (st : TSAState) (fc : List FRow) (data : List (Nat × ℚ))
    (p : Int) (hf : st.forecast = some fc) (hp : 0 < p)
    (lf : FRow) (lh : Nat × ℚ)
    (hlf : ((fc.drop data.length).take p.toNat).getLast? = some lf)
    (hlh : data.getLast? = some lh) :
    (summaryBody st data p).2 = .ok (some
      ({ total_forecast_sales :=
           (((fc.drop data.length).take p.toNat).map FRow.yhat).sum,
         average_monthly_sales :=
           (((fc.drop data.length).take p.toNat).map FRow.yhat).sum /
             ((((fc.drop data.length).take p.toNat)).length : ℚ),
         min_expected_sales :=
           listMin lf.yhat_lower
             (((fc.drop data.length).take p.toNat).map FRow.yhat_lower),
         max_expected_sales :=
           listMax lf.yhat_upper
             (((fc.drop data.length).take p.toNat).map FRow.yhat_upper),
         sales_growth_rate := (lf.yhat / lh.2 - 1) * 100 },
        (fc.drop data.length).take p.toNat)) := by
  unfold summaryBody
  rw [hf]
  simp only [pySlice_pos fc data.length p hp]
  rw [hlf, hlh]

/-- C6: for a session that fits on a training series with distinct dates and
at least two rows, forecasts `H > 0` months and summarizes the same series
over `H` months, the reported `Sales_Growth_Rate` equals
`(last future point estimate / last historical observed value - 1) * 100`,
where the last future point estimate is the model's `yhat` at the last
historical date plus `H` months. -/
theorem c6_growth_rate (pred : Nat → ℚ × ℚ × ℚ) (st0 : TSAState)
    (tr : List (Nat × ℚ)) (H : Nat)
    (hH : 0 < H) (h2 : 2 ≤ tr.length) (hnd : (tr.map Prod.fst).Nodup)
    (hne : tr ≠ []) :
    ∃ s ff,
      (get_forecast_summary
        (forecast_sales pred (fit_prophet_model st0 tr).1 H).1 tr (H : Int)).2 =
        .ok (some (s, ff)) ∧
      s.sales_growth_rate =
        (((pred ((sortDates (tr.map Prod.fst).dedup).getLast?.getD 0 + H)).1 /
          (tr.getLast hne).2) - 1) * 100 := by
  have hlt : ¬ tr.length < 2 := by omega
  set D := sortDates (tr.map Prod.fst).dedup with hD
  have hfit : (fit_prophet_model st0 tr).1 =
      { st0 with prophet_model := some (ProphetObj.fitted D) } := by
    unfold fit_prophet_model fitBody pyCatchAll
    simp only [if_neg hlt]
  set fc := predictRows pred (make_future_dataframe D H) with hfc
  have hfs : (forecast_sales pred
      { st0 with prophet_model := some (ProphetObj.fitted D) } H).1 =
      { st0 with prophet_model := some (ProphetObj.fitted D),
                 forecast := some fc } := by
    unfold forecast_sales forecastBody pyCatchAll
    rfl
  rw [hfit, hfs]
  have hlen : D.length = tr.length := by
    rw [hD, length_sortDates, hnd.dedup, List.length_map]
  have hdrop : fc.drop tr.length =
      predictRows pred ((List.range H).map fun i => D.getLast?.getD 0 + (i + 1)) := by
    rw [hfc, make_future_dataframe, ← hlen, predictRows_drop_hist]
  have htake : (fc.drop tr.length).take H =
      predictRows pred ((List.range H).map fun i => D.getLast?.getD 0 + (i + 1)) := by
    rw [hdrop]
    apply List.take_of_length_le
    simp [predictRows]
  have hsub : H - 1 + 1 = H := Nat.succ_pred_eq_of_pos hH
  have hlast : (predictRows pred
      ((List.range H).map fun i => D.getLast?.getD 0 + (i + 1))).getLast? =
      some ⟨D.getLast?.getD 0 + H,
            (pred (D.getLast?.getD 0 + H)).1,
            (pred (D.getLast?.getD 0 + H)).2.1,
            (pred (D.getLast?.getD 0 + H)).2.2⟩ := by
    rw [List.getLast?_eq_getElem?]
    have hlen2 : (predictRows pred
        ((List.range H).map fun i => D.getLast?.getD 0 + (i + 1))).length = H := by
      simp [predictRows]
    rw [hlen2]
    have hH1 : H - 1 < H := by omega
    simp [predictRows, List.getElem?_map, List.getElem?_range, hH1, hsub]
  have hlh : tr.getLast? = some (tr.getLast hne) := List.getLast?_eq_getLast tr hne
  have htoNat : ((H : Int)).toNat = H := by simp
  have hlf : ((fc.drop tr.length).take ((H : Int)).toNat).getLast? =
      some ⟨D.getLast?.getD 0 + H,
            (pred (D.getLast?.getD 0 + H)).1,
            (pred (D.getLast?.getD 0 + H)).2.1,
            (pred (D.getLast?.getD 0 + H)).2.2⟩ := by
    rw [htoNat, htake, hlast]
  have hsum := summaryBody_ok
    { st0 with prophet_model := some (ProphetObj.fitted D), forecast := some fc }
    fc tr (H : Int) rfl (by exact_mod_cast hH) _ _ hlf hlh
  exact ⟨_, _, pyCatchAll_ok_val _ _ hsum, rfl⟩

theorem c6_growth_rate_witness :
    ∃ s ff,
      (get_forecast_summary
        (forecast_sales (fun _ => ((120 : ℚ), 110, 130))
          (fit_prophet_model initState [(0, 50), (1, 100)]).1 1).1
        [(0, 50), (1, 100)] ((1 : Nat) : Int)).2 = .ok (some (s, ff)) ∧
      s.sales_growth_rate = 20 := by
  obtain ⟨s, ff, h1, h2⟩ := c6_growth_rate (fun _ => ((120 : ℚ), 110, 130)) initState
    [(0, 50), (1, 100)] 1 (by norm_num) (by norm_num) (by decide) (by simp)
  refine ⟨s, ff, h1, ?_⟩
  rw [h2]
  norm_num [List.getLast]

theorem getD_pos (s : List ℚ) (hpos : ∀ x ∈ s, 0 < x) (k : Nat) (hk : k < s.length) :
    0 < s.getD k 0 := by
  rw [List.getD_eq_getElem?_getD, List.getElem?_eq_getElem hk]
  exact hpos _ (List.getElem_mem hk)

theorem trendAt_pos (s : List ℚ) (hpos : ∀ x ∈ s, 0 < x) (i : Nat)
    (h6 : 6 ≤ i) (hi : i + 6 < s.length) :
    ∃ t, trendAt s 12 i = some t ∧ 0 < t := by
  refine ⟨_, if_pos (by omega), ?_⟩
  apply div_pos
  · apply List.sum_pos
    · intro x hx
      rcases List.mem_map.mp hx with ⟨j, hj, rfl⟩
      have hjr : j < 13 := List.mem_range.mp hj
      have hidx : i - 12 / 2 + j < s.length := by omega
      have hval := getD_pos s hpos _ hidx
      by_cases h0 : j = 0 ∨ j = 12
      · rw [if_pos h0]
        linarith
      · rw [if_neg h0]
        linarith
    · simp
  · norm_num

theorem trendAt_eq_some (s : List ℚ) (p i : Nat) (t : ℚ)
    (h : trendAt s p i = some t) : p / 2 ≤ i ∧ i + p / 2 < s.length := by
  by_cases hc : p / 2 ≤ i ∧ i + p / 2 < s.length
  · exact hc
  · rw [trendAt, if_neg hc] at h
    exact Option.noConfusion h

theorem detrendedVals_pos (s : List ℚ) (hpos : ∀ x ∈ s, 0 < x) (j : Nat)
    (x : ℚ) (hx : x ∈ detrendedVals s 12 j) : 0 < x := by
  rcases List.mem_filterMap.mp hx with ⟨i, hi, heq⟩
  cases htr : trendAt s 12 i with
  | none => rw [htr] at heq; exact Option.noConfusion heq
  | some t =>
    rw [htr] at heq
    simp only [Option.map_some'] at heq
    obtain ⟨hlo, hup⟩ := trendAt_eq_some s 12 i t htr
    have h6 : 6 ≤ i := by omega
    have hu : i + 6 < s.length := by omega
    obtain ⟨t', htr', htpos⟩ := trendAt_pos s hpos i h6 hu
    rw [htr] at htr'
    have ht : t = t' := by injection htr'
    have hx' : s.getD i 0 / t = x := by injection heq
    rw [← hx', ht]
    exact div_pos (getD_pos s hpos i (by omega)) htpos

theorem detrendedVals_ne_nil (s : List ℚ) (j : Nat) (hj : j < 12)
    (h24 : 2 * 12 ≤ s.length) : detrendedVals s 12 j ≠ [] := by
  obtain ⟨i0, hmod, h6, hup⟩ : ∃ i0, i0 % 12 = j ∧ 6 ≤ i0 ∧ i0 + 6 < s.length := by
    by_cases h : j < 6
    · exact ⟨12 + j, by omega, by omega, by omega⟩
    · exact ⟨j, by omega, by omega, by omega⟩
  obtain ⟨t, ht⟩ : ∃ t, trendAt s 12 i0 = some t := ⟨_, if_pos (by omega)⟩
  apply List.ne_nil_of_mem (a := s.getD i0 0 / t)
  apply List.mem_filterMap.mpr
  refine ⟨i0, ?_, ?_⟩
  · exact List.mem_filter.mpr ⟨List.mem_range.mpr (by omega), by simp [hmod]⟩
  · rw [ht]
    rfl

theorem periodAvg_pos (s : List ℚ) (hpos : ∀ x ∈ s, 0 < x) (j : Nat)
    (hj : j < 12) (h24 : 2 * 12 ≤ s.length) :
    ∃ v, periodAvg s 12 j = some v ∧ 0 < v := by
  have hne := detrendedVals_ne_nil s j hj h24
  have hlen : (detrendedVals s 12 j).length ≠ 0 := by
    simpa [List.length_eq_zero] using hne
  refine ⟨_, by rw [periodAvg, if_neg hlen], ?_⟩
  apply div_pos
  · exact List.sum_pos _ (fun x hx => detrendedVals_pos s hpos j x hx) hne
  · have hp : 0 < (detrendedVals s 12 j).length := Nat.pos_of_ne_zero hlen
    exact_mod_cast hp

theorem liftOpts_all_some (L : List (Option ℚ)) (h : ∀ o ∈ L, o ≠ none) :
    ∃ l, liftOpts L = some l ∧ l.length = L.length ∧
      l.sum = (L.filterMap id).sum ∧ ∀ x ∈ l, some x ∈ L := by
  induction L with
  | nil => exact ⟨[], rfl, rfl, rfl, by simp⟩
  | cons o rest ih =>
    cases o with
    | none => exact absurd rfl (h none (List.mem_cons_self _ _))
    | some x =>
      obtain ⟨l, hl, hlen, hsum, hmem⟩ := ih fun o ho => h o (List.mem_cons_of_mem _ ho)
      refine ⟨x :: l, ?_, by simp [hlen], ?_, ?_⟩
      · simp [liftOpts, hl]
      · simp [hsum]
      · intro y hy
        rcases List.mem_cons.mp hy with hy | hy
        · subst hy; exact List.mem_cons_self _ _
        · exact List.mem_cons_of_mem _ (hmem y hy)

theorem sum_map_div (l : List ℚ) (c : ℚ) :
    (l.map fun a => a / c).sum = l.sum / c := by
  induction l with
  | nil => simp
  | cons x xs ih => simp [ih, add_div]

/-- C9: for every decomposable series (length at least two full cycles of the
fixed period 12) with strictly positive values — the domain on which the
multiplicative decomposition is well defined — the 12 seasonal indices are
all defined and normalized so that their mean is exactly 1. -/
theorem c9_seasonal_normalization (s : List ℚ) (h24 : 2 * 12 ≤ s.length)
    (hpos : ∀ x ∈ s, 0 < x) :
    ∃ idx, seasonalIndices s 12 = some idx ∧ idx.length = 12 ∧
      idx.sum / (idx.length : ℚ) = 1 := by
  have hall : ∀ o ∈ periodAvgs s 12, o ≠ none := by
    intro o ho
    rcases List.mem_map.mp ho with ⟨j, hj, rfl⟩
    obtain ⟨v, hv, _⟩ := periodAvg_pos s hpos j (List.mem_range.mp hj) h24
    rw [hv]
    exact Option.noConfusion
  obtain ⟨avgs, hlift, hlen, hsum, hmem⟩ := liftOpts_all_some _ hall
  have hlen12 : avgs.length = 12 := by
    rw [hlen]
    simp [periodAvgs]
  have hSpos : 0 < avgs.sum := by
    apply List.sum_pos
    · intro x hx
      have hx' := hmem x hx
      rcases List.mem_map.mp hx' with ⟨j, hj, hxeq⟩
      obtain ⟨v, hv, hvpos⟩ := periodAvg_pos s hpos j (List.mem_range.mp hj) h24
      rw [hv] at hxeq
      have hvx : v = x := by injection hxeq
      rw [← hvx]
      exact hvpos
    · intro hnil
      rw [hnil] at hlen12
      simp at hlen12
  have hS : avgs.sum ≠ 0 := ne_of_gt hSpos
  refine ⟨avgs.map fun a => a / (avgs.sum / (avgs.length : ℚ)), ?_, by simp [hlen12], ?_⟩
  · unfold seasonalIndices
    rw [hlift]
    rfl
  · rw [sum_map_div, List.length_map, hlen12]
    field_simp

theorem c9_seasonal_normalization_witness :
    ∃ idx, seasonalIndices (List.replicate 24 (1 : ℚ)) 12 = some idx ∧
      idx.length = 12 ∧ idx.sum / (idx.length : ℚ) = 1 :=
  c9_seasonal_normalization (List.replicate 24 1) (by simp)
    (by intro x hx; rw [List.eq_of_mem_replicate hx]; norm_num)

/-- C2 counterexample: a dataset of ten monthly points, period 12: the
decomposition does fail rather than return a result, but the exception that
escapes is the statsmodels `ValueError` (propagated because
`decompose_revenue` catches only `PlotlyError`), not an
`InsufficientDataError` — the repository defines no such class. -/
theorem c2_insufficient_data_counterexample :
    decompose_revenue ((List.range 10).map fun i => (⟨"Germany", i, 1⟩ : Row)) =
      .error (.valueError "x must have 2 complete cycles") ∧
    decompose_revenue ((List.range 10).map fun i => (⟨"Germany", i, 1⟩ : Row)) ≠
      .error (.userDefined "InsufficientDataError") := by
  have hA : (((groupSumByDate ((List.range 10).map fun i =>
      (⟨"Germany", i, 1⟩ : Row))).map Prod.snd).any fun x => decide (x ≤ 0)) = false := by
    norm_num [groupSumByDate, groupDates, sortDates, insertSorted, sumSalesAt,
      List.range_succ, List.dedup_cons_of_mem, List.dedup_cons_of_not_mem]
  have h : decompose_revenue ((List.range 10).map fun i => (⟨"Germany", i, 1⟩ : Row)) =
      .error (.valueError "x must have 2 complete cycles") := by
    rw [decompose_revenue, seasonal_decompose, if_neg (by simp [hA]), if_pos (by decide)]
    rfl
  refine ⟨h, ?_⟩
  rw [h]
  intro hc
  have hinj := Except.error.inj hc
  exact PyExc.noConfusion hinj

/-- C2 amended: for every dataset whose aggregated monthly series has fewer
than 2 × 12 points, `decompose_revenue` fails with a `ValueError` instead of
returning a result — propagated uncaught from statsmodels, since only
`PlotlyError` is handled; when the aggregated series is moreover strictly
positive the error is specifically the two-complete-cycles `ValueError`
(otherwise it is the library's multiplicative-positivity `ValueError`,
raised first).  No `InsufficientDataError` exists in the repository and no
explicit length validation is performed by the repository code itself. -/
theorem c2_insufficient_data_amended (df : List Row)
    (h : ((groupSumByDate df).map Prod.snd).length < 2 * 12) :
    (∃ msg, decompose_revenue df = .error (.valueError msg)) ∧
    ((∀ x ∈ (groupSumByDate df).map Prod.snd, 0 < x) →
      decompose_revenue df =
        .error (.valueError "x must have 2 complete cycles")) := by
  by_cases hA : (((groupSumByDate df).map Prod.snd).any fun x => decide (x ≤ 0)) = true
  · constructor
    · refine ⟨"Multiplicative seasonality is not appropriate for zero and negative values", ?_⟩
      rw [decompose_revenue, seasonal_decompose, if_pos hA]
      rfl
    · intro hpos
      exfalso
      rcases List.any_eq_true.mp hA with ⟨x, hx, hle⟩
      have hxpos := hpos x hx
      rw [decide_eq_true_iff] at hle
      linarith
  · have hmain : decompose_revenue df =
        .error (.valueError "x must have 2 complete cycles") := by
      rw [decompose_revenue, seasonal_decompose, if_neg hA, if_pos h]
      rfl
    exact ⟨⟨"x must have 2 complete cycles", hmain⟩, fun _ => hmain⟩

theorem c2_insufficient_data_amended_witness :
    (∃ msg, decompose_revenue [(⟨"Poland", 0, 2⟩ : Row)] =
      .error (.valueError msg)) ∧
    decompose_revenue [(⟨"Poland", 0, 2⟩ : Row)] =
      .error (.valueError "x must have 2 complete cycles") := by
  have h := c2_insufficient_data_amended [⟨"Poland", 0, 2⟩] (by decide)
  refine ⟨h.1, h.2 ?_⟩
  norm_num [groupSumByDate, groupDates, sortDates, insertSorted, sumSalesAt]
